import Mathlib

/-!
Formal model of the earthquake Extraction-Gate-Transform pipeline and
verification of its specified properties.

The development shallowly embeds the Python ETL modules:
  * data_quality_check.py : the mandatory quality gate (row count, null
    ratio, schema/type, value ranges) over pandas DataFrames built from
    GeoJSON records;
  * download_historical.py : interval generation and the partial-failure
    extraction loop;
  * transform_data.py : GeoJSON loading, lag/rolling feature derivation,
    location features and the cleaning stage.

Machine reals are modelled by rationals, epoch timestamps by integers
(milliseconds, or seconds for the interval generator), and nullable cells
by Option / an explicit value universe.  Fallible code returns Except.
-/

namespace EtlModel

/-! ## Quality gate: value universe and pandas dtype model

data_quality_check.load_data builds a DataFrame from dict records whose
cells are JSON scalars: null, int, float or string.  The schema check
(check_schema) looks at the runtime type of the first stored element of a
column, which depends on the dtype pandas infers for the whole column, so
the model tracks dtype inference and numpy scalar boxing explicitly. -/

/-- A raw cell value of a record produced by load_data from GeoJSON. -/
inductive PyVal where
  | vnone
  | vint (n : ℤ)
  | vfloat (q : ℚ)
  | vstr (s : String)
deriving DecidableEq

/-- One record built by load_data: id plus the extracted core fields. -/
structure QRow where
  id : String
  magnitude : PyVal
  time : PyVal
  longitude : PyVal
  latitude : PyVal
  depth : PyVal
deriving DecidableEq

/-- A loaded dataset, one QRow per GeoJSON feature (columns implicit). -/
abbrev QFrame := List QRow

/-- Whether a raw cell holds a number (int or float). -/
def PyVal.isNumeric : PyVal → Bool
  | .vint _ => true
  | .vfloat _ => true
  | _ => false

/-- Whether a raw cell is null (pandas isna). -/
def PyVal.isNull : PyVal → Bool
  | .vnone => true
  | _ => false

/-- Whether a raw cell is an int. -/
def PyVal.isInt : PyVal → Bool
  | .vint _ => true
  | _ => false

/-- Pandas column dtypes relevant to this dataset. -/
inductive Dtype where
  | dint
  | dfloat
  | dobject
deriving DecidableEq

/-- Dtype pandas infers for a column of raw record cells: all ints give
int64; numbers possibly mixed with nulls give float64 (nulls become NaN);
anything else, including an all-null column, stays object. -/
def colDtype (vals : List PyVal) : Dtype :=
  if !vals.isEmpty && vals.all PyVal.isInt then .dint
  else if vals.any PyVal.isNumeric && vals.all (fun v => v.isNumeric || v.isNull) then .dfloat
  else .dobject

/-- The runtime value Series.iloc returns for a stored cell, tracking numpy
scalar boxing: int64 columns yield numpy ints, float64 columns yield numpy
floats (null stored as NaN, modelled as the none payload), object columns
yield the raw Python value. -/
inductive StoredVal where
  | snone
  | spyInt (n : ℤ)
  | spyFloat (q : ℚ)
  | snpInt (n : ℤ)
  | snpFloat (q : Option ℚ)
  | sstr (s : String)
deriving DecidableEq

/-- Stored (boxed) value of one raw cell inside a column of a given dtype.
The dint combinations with non-int cells cannot arise from colDtype. -/
def storedVal : Dtype → PyVal → StoredVal
  | .dint, .vint n => .snpInt n
  | .dfloat, .vint n => .snpFloat (some (n : ℚ))
  | .dfloat, .vfloat q => .snpFloat (some q)
  | .dfloat, .vnone => .snpFloat none
  | .dobject, .vint n => .spyInt n
  | .dobject, .vfloat q => .spyFloat q
  | .dobject, .vnone => .snone
  | _, .vstr s => .sstr s
  | .dint, .vfloat q => .spyFloat q
  | .dint, .vnone => .snone

/-- Python isinstance(v, (float, int)) on a stored value: Python numbers
qualify, numpy float64 is a float subclass, but numpy int64 is not a
Python int, and None and strings are not numbers. -/
def isinstFloatInt : StoredVal → Bool
  | .spyInt _ => true
  | .spyFloat _ => true
  | .snpFloat _ => true
  | _ => false

/-- Python isinstance(v, (int, float, np.int64)) used for the time column. -/
def isinstTime : StoredVal → Bool
  | .spyInt _ => true
  | .spyFloat _ => true
  | .snpFloat _ => true
  | .snpInt _ => true
  | _ => false

/-! ## Quality gate: the four checks and their aggregation -/

/-- Minimum number of rows required (MIN_ROWS). -/
def MIN_ROWS : ℕ := 100

/-- Maximum allowed fraction of null values per key column. -/
def NULL_THRESHOLD : ℚ := 1 / 100

/-- check_row_count: dataset must have at least MIN_ROWS rows. -/
def check_row_count (df : QFrame) : Bool × String :=
  if df.length < MIN_ROWS then
    (false, "Row count is below minimum threshold")
  else
    (true, "Row count check passed")

/-- Number of null cells of one column. -/
def colNullCount (df : QFrame) (get : QRow → PyVal) : ℕ :=
  df.countP (fun r => (get r).isNull)

/-- Fraction of null cells of one column (isna sum over len). -/
def colNullFrac (df : QFrame) (get : QRow → PyVal) : ℚ :=
  (colNullCount df get : ℚ) / (df.length : ℚ)

/-- Violation messages contributed by one column of check_null_values. -/
def nullColViol (df : QFrame) (name : String) (get : QRow → PyVal) : List String :=
  if NULL_THRESHOLD < colNullFrac df get then
    ["Column " ++ name ++ " has too many null values"]
  else []

/-- check_null_values: each key column may have at most NULL_THRESHOLD
null values.  The four key columns are always present in a loaded frame,
so the missing-column branch of the source cannot trigger here. -/
def check_null_values (df : QFrame) : Bool × List String :=
  let violations :=
    nullColViol df "magnitude" (fun r => r.magnitude) ++
    nullColViol df "time" (fun r => r.time) ++
    nullColViol df "longitude" (fun r => r.longitude) ++
    nullColViol df "latitude" (fun r => r.latitude)
  (violations.isEmpty, violations)

/-- Stored value of the first element of a column, as the source reads it:
df col iloc 0 when the frame is nonempty, else Python None. -/
def firstStored (df : QFrame) (get : QRow → PyVal) : StoredVal :=
  match df with
  | [] => .snone
  | r :: rest => storedVal (colDtype (get r :: rest.map get)) (get r)

/-- Violation messages contributed by one column of check_schema. -/
def schemaColViol (df : QFrame) (inst : StoredVal → Bool) (name : String)
    (get : QRow → PyVal) : List String :=
  if inst (firstStored df get) then [] else ["Column " ++ name ++ " has wrong type"]

/-- check_schema: isinstance test on the first element of each core column
(all four columns are present in a loaded frame). -/
def check_schema (df : QFrame) : Bool × List String :=
  let violations :=
    schemaColViol df isinstFloatInt "magnitude" (fun r => r.magnitude) ++
    schemaColViol df isinstTime "time" (fun r => r.time) ++
    schemaColViol df isinstFloatInt "longitude" (fun r => r.longitude) ++
    schemaColViol df isinstFloatInt "latitude" (fun r => r.latitude)
  (violations.isEmpty, violations)

/-- Count of column cells outside the closed range lo..hi, as the
elementwise pandas comparison computes it.  On a numeric column NaN
compares false on both sides and is not counted.  On a nonempty object
column the Python 3 comparison of a string or None against a number
raises TypeError, modelled as an error. -/
def countOutOfRange (vals : List PyVal) (lo hi : ℚ) : Except String ℕ :=
  if vals.isEmpty then .ok 0
  else
    match colDtype vals with
    | .dobject => .error "TypeError: comparison of non-numeric column"
    | _ => .ok (vals.countP (fun v =>
        match v with
        | .vint n => decide ((n : ℚ) < lo) || decide (hi < (n : ℚ))
        | .vfloat q => decide (q < lo) || decide (hi < q)
        | _ => false))

/-- check_value_ranges: magnitude within 0..10, longitude within
-180..180, latitude within -90..90. -/
def check_value_ranges (df : QFrame) : Except String (Bool × List String) := do
  let cnt1 ← countOutOfRange (df.map (fun r => r.magnitude)) 0 10
  let cnt2 ← countOutOfRange (df.map (fun r => r.longitude)) (-180) 180
  let cnt3 ← countOutOfRange (df.map (fun r => r.latitude)) (-90) 90
  let violations :=
    (if 0 < cnt1 then ["Found rows with magnitude outside range"] else []) ++
    (if 0 < cnt2 then ["Found rows with longitude outside range"] else []) ++
    (if 0 < cnt3 then ["Found rows with latitude outside range"] else [])
  pure (violations.isEmpty, violations)

/-- Aggregate result of run_quality_checks. -/
structure QCResult where
  row_count : ℕ
  passed : Bool
  violations : List String
deriving DecidableEq

/-- run_quality_checks: runs the four checks in declaration order and
accumulates the failing checks' messages; an exception escaping a check
(the object-column TypeError of the range check) aborts the run. -/
def run_quality_checks (df : QFrame) : Except String QCResult :=
  let c1 := check_row_count df
  let c2 := check_null_values df
  let c3 := check_schema df
  match check_value_ranges df with
  | .error e => .error e
  | .ok c4 =>
    .ok {
      row_count := df.length
      passed := c1.1 && c2.1 && c3.1 && c4.1
      violations :=
        (if c1.1 then [] else [c1.2]) ++ (if c2.1 then [] else c2.2) ++
        (if c3.1 then [] else c3.2) ++ (if c4.1 then [] else c4.2) }

/-- Messages the row-count check contributes to the aggregate list. -/
def rowCountMsgs (df : QFrame) : List String :=
  if (check_row_count df).1 then [] else [(check_row_count df).2]

/-- Messages the null check contributes to the aggregate list. -/
def nullCheckMsgs (df : QFrame) : List String :=
  if (check_null_values df).1 then [] else (check_null_values df).2

/-- Messages the schema check contributes to the aggregate list. -/
def schemaCheckMsgs (df : QFrame) : List String :=
  if (check_schema df).1 then [] else (check_schema df).2

/-- Messages the range check contributes to the aggregate list (empty when
the check raised instead of returning). -/
def rangeCheckMsgs (df : QFrame) : List String :=
  match check_value_ranges df with
  | .ok c => if c.1 then [] else c.2
  | .error _ => []

/-! ## Interval generation (download_historical.generate_date_intervals)

Time is measured in seconds from midnight of January 1 of start_year.
A Python datetime is an integer second count; strftime to a YYYY-MM-DD
string is represented by the day index of the datetime, that is its
floor-division by 86400.  The loop state current_start is always a
midnight, the global end is second 86400 * L - 1 (23:59:59 of the last
day), where L is the total day count of the year span. -/

/-- Gregorian leap-year rule used by Python datetime. -/
def isLeap (y : ℕ) : Bool :=
  (y % 4 == 0 && y % 100 != 0) || y % 400 == 0

/-- Number of days of one calendar year. -/
def daysInYear (y : ℕ) : ℕ := if isLeap y then 366 else 365

/-- Number of days from Jan 1 of start_year through Dec 31 of end_year. -/
def totalDays (startYear endYear : ℕ) : ℕ :=
  ((List.range (endYear + 1 - startYear)).map (fun i => daysInYear (startYear + i))).sum

/-- The while loop of generate_date_intervals.  Arguments: remaining fuel
(the source loop always terminates when 1 <= k, and the callers pass
enough fuel for that case), interval_years k, current_start cs and the
global end endS, both in seconds.  A produced pair is the day index of the
interval start and of the interval end, exactly the content of the
YYYY-MM-DD strings the source emits.  The days attribute of a Python
timedelta of s seconds is the floor division of s by 86400. -/
def genLoop (fuel : ℕ) (k : ℤ) (cs endS : ℤ) : List (ℤ × ℤ) :=
  match fuel with
  | 0 => []
  | fuel + 1 =>
    if cs < endS then
      let intervalEnd := cs + 86400 * (365 * k) - 1
      let ce := min intervalEnd endS
      let kept :=
        if 1 ≤ (ce - cs).fdiv 86400 then [(cs.fdiv 86400, ce.fdiv 86400)] else []
      let cs' := ce + 1
      kept ++ (if endS < cs' then [] else genLoop fuel k cs' endS)
    else []

/-- generate_date_intervals: intervals of 365 * interval_years days each,
the last truncated to Dec 31 of end_year, intervals spanning less than one
day dropped.  The result lists (startDay, endDay) pairs of day indices
counted from Jan 1 of start_year (the source's date strings). -/
def generate_date_intervals (startYear endYear : ℕ) (intervalYears : ℤ) :
    List (ℤ × ℤ) :=
  let L : ℤ := totalDays startYear endYear
  genLoop (totalDays startYear endYear) intervalYears 0 (86400 * L - 1)

/-- Day-index formulation of the loop: state is the day D of
current_start; M is the day of the next interval start.  Proved equal to
genLoop below. -/
def dayLoop (fuel : ℕ) (k : ℤ) (D L : ℤ) : List (ℤ × ℤ) :=
  match fuel with
  | 0 => []
  | fuel + 1 =>
    if D < L then
      let M := min (D + 365 * k) L
      (if D + 2 ≤ M then [(D, M - 1)] else []) ++
        (if L ≤ M then [] else dayLoop fuel k M L)
    else []

/-- The intervals form a contiguous chain whose first interval starts at
day D: each next interval starts the day after the previous one ends. -/
def contigFrom (D : ℤ) : List (ℤ × ℤ) → Prop
  | [] => True
  | p :: rest => p.1 = D ∧ contigFrom (p.2 + 1) rest

/-- Every day index d with 0 <= d < L lies in some interval of the list:
the rendering of the coverage conjunct of the specified property. -/
def coversAllDays (ivs : List (ℤ × ℤ)) (L : ℤ) : Prop :=
  ∀ d : ℤ, 0 ≤ d → d < L → ∃ p ∈ ivs, p.1 ≤ d ∧ d ≤ p.2

/-- The full property claimed for generate_date_intervals: ordered
ascending and non-overlapping (Pairwise), contiguous from Jan 1 of
start_year, each interval spanning at least one day with end at least
start, all intervals inside the global range, and covering exactly the
range from Jan 1 of start_year through Dec 31 of end_year. -/
def intervalsClaim (startYear endYear : ℕ) (intervalYears : ℤ) : Prop :=
  let ivs := generate_date_intervals startYear endYear intervalYears
  let L : ℤ := totalDays startYear endYear
  ivs.Pairwise (fun p q => p.2 < q.1) ∧
  contigFrom 0 ivs ∧
  (∀ p ∈ ivs, p.1 ≤ p.2 ∧ 0 ≤ p.1 ∧ p.2 < L) ∧
  coversAllDays ivs L

/-! ## Feature transform: lag and rolling features
(transform_data.create_lag_features)

A row entering create_lag_features carries its occurrence time (the
datetime column, epoch milliseconds) and its magnitude.  The function
first sorts by time (sort_values), then derives time_since_last (hours),
the three magnitude lags (shift, null for missing history) and the
time-windowed rolling statistics.  Pandas time-based rolling windows are
right-aligned and by default left-open: at row i the window holds the
rows at positions at most i whose time t satisfies t_i - W < t <= t_i;
pandas finds the first in-window position and takes the contiguous slice
up to row i, which the model mirrors with findIdx and drop. -/

/-- One event entering create_lag_features. -/
structure EventT where
  t : ℤ
  mag : ℚ
deriving DecidableEq, Inhabited

/-- Stable sort by the datetime column (sort_values). -/
def sortByTime (df : List EventT) : List EventT :=
  List.insertionSort (fun a b => a.t ≤ b.t) df

/-- Window length of 24 hours in milliseconds. -/
def H24 : ℤ := 86400000

/-- Window length of 7 days in milliseconds. -/
def D7 : ℤ := 604800000

/-- Window length of 30 days in milliseconds. -/
def D30 : ℤ := 2592000000

/-- The pandas rolling window over the prefix pre of rows up to and
including row i, for the row time ti: drop the rows up to the first
position whose time exceeds ti - W. -/
def windowSlice (pre : List EventT) (ti W : ℤ) : List EventT :=
  pre.drop (pre.findIdx (fun r => decide (ti - W < r.t)))

/-- Arithmetic mean of the magnitudes of a window. -/
def windowMean (w : List EventT) : ℚ :=
  (w.map (fun r => r.mag)).sum / (w.length : ℚ)

/-- One output row of create_lag_features (the derived columns the
specification constrains; rolling std is omitted as no claim touches it). -/
structure LagRow where
  t : ℤ
  mag : ℚ
  time_since_last : ℚ
  mag_lag1 : Option ℚ
  mag_lag2 : Option ℚ
  mag_lag3 : Option ℚ
  mag_rolling_24h : ℚ
  mag_rolling_7d : ℚ
  mag_rolling_30d : ℚ
  count_rolling_24h : ℕ
  count_rolling_7d : ℕ
deriving DecidableEq, Inhabited

/-- Derived columns at position i of the sorted frame s (only positions
below the length are used). -/
def buildLagRow (s : List EventT) (i : ℕ) : LagRow :=
  let r := s.getD i default
  let pre := s.take (i + 1)
  { t := r.t
    mag := r.mag
    time_since_last :=
      if i = 0 then 0
      else (((r.t - (s.getD (i - 1) default).t : ℤ) : ℚ)) / 3600000
    mag_lag1 := if 1 ≤ i then (s.get? (i - 1)).map (fun x => x.mag) else none
    mag_lag2 := if 2 ≤ i then (s.get? (i - 2)).map (fun x => x.mag) else none
    mag_lag3 := if 3 ≤ i then (s.get? (i - 3)).map (fun x => x.mag) else none
    mag_rolling_24h := windowMean (windowSlice pre r.t H24)
    mag_rolling_7d := windowMean (windowSlice pre r.t D7)
    mag_rolling_30d := windowMean (windowSlice pre r.t D30)
    count_rolling_24h := (windowSlice pre r.t H24).length
    count_rolling_7d := (windowSlice pre r.t D7).length }

/-- create_lag_features: sort by time, then derive the lag and rolling
columns row by row. -/
def create_lag_features (df : List EventT) : List LagRow :=
  let s := sortByTime df
  (List.range s.length).map (fun i => buildLagRow s i)

/-- Mean of the magnitudes of all rows of s whose time lies in the closed
interval from ti - W to ti: the window reading asserted by the claim. -/
def closedWindowMean (s : List EventT) (ti W : ℤ) : ℚ :=
  windowMean (s.filter (fun r => decide (ti - W ≤ r.t) && decide (r.t ≤ ti)))

/-- The claimed rolling-window property: every produced rolling mean is
the arithmetic mean of the magnitudes over the closed window, for all
three window lengths. -/
def rollingClaim (df : List EventT) : Prop :=
  let s := sortByTime df
  ∀ o ∈ create_lag_features df,
    o.mag_rolling_24h = closedWindowMean s o.t H24 ∧
    o.mag_rolling_7d = closedWindowMean s o.t D7 ∧
    o.mag_rolling_30d = closedWindowMean s o.t D30

/-- Mean of the magnitudes of the rows up to and including position i of
the sorted frame whose time lies in the left-open window from ti - W
exclusive to ti inclusive: the corrected window reading. -/
def openPrefixMean (s : List EventT) (i : ℕ) (W : ℤ) : ℚ :=
  let ti := (s.getD i default).t
  windowMean ((s.take (i + 1)).filter
    (fun r => decide (ti - W < r.t) && decide (r.t ≤ ti)))

/-! ## Feature transform: location features
(transform_data.create_location_features)

Comparisons against a null coordinate are false, as for pandas NaN. -/

/-- Elementwise comparison value at least c, null compares false. -/
def cmpGeB (v : Option ℚ) (c : ℚ) : Bool :=
  match v with
  | some q => decide (c ≤ q)
  | none => false

/-- Elementwise comparison value at most c, null compares false. -/
def cmpLeB (v : Option ℚ) (c : ℚ) : Bool :=
  match v with
  | some q => decide (q ≤ c)
  | none => false

/-- The pacific_ring indicator: longitude at least 120 and at most -70,
or latitude between -60 and 60, cast to int. -/
def pacific_ring (longitude latitude : Option ℚ) : ℕ :=
  if (cmpGeB longitude 120 && cmpLeB longitude (-70)) ||
      (cmpGeB latitude (-60) && cmpLeB latitude 60) then 1 else 0

/-- Input row of create_location_features. -/
structure LocRow where
  longitude : Option ℚ
  latitude : Option ℚ
deriving DecidableEq

/-- Output row of create_location_features. -/
structure LocOut where
  longitude : Option ℚ
  latitude : Option ℚ
  abs_latitude : Option ℚ
  pacific_ring : ℕ
deriving DecidableEq

/-- create_location_features: absolute latitude and the pacific_ring
high-activity indicator. -/
def create_location_features (df : List LocRow) : List LocOut :=
  df.map (fun r =>
    { longitude := r.longitude
      latitude := r.latitude
      abs_latitude := r.latitude.map (fun q => |q|)
      pacific_ring := pacific_ring r.longitude r.latitude })

/-! ## Feature transform: cleaning (transform_data.clean_data)

The cleaning stage works on the Event-shaped table: the record columns
produced by load_geojson.  Numeric columns are represented uniformly as a
function from the column name to an optional rational (None models both
JSON null and NaN); the string-valued descriptive columns other than id
are untouched by clean_data and omitted. -/

/-- The numeric columns of the raw Event table, in DataFrame column
order. -/
inductive NumCol where
  | magnitude
  | time
  | longitude
  | latitude
  | depth
  | tsunami
  | significance
  | gap
  | dmin
  | rms
  | nst
deriving DecidableEq

/-- The numeric columns in the order select_dtypes yields them. -/
def numColOrder : List NumCol :=
  [.magnitude, .time, .longitude, .latitude, .depth, .tsunami,
   .significance, .gap, .dmin, .rms, .nst]

/-- An Event-shaped row: id plus the numeric cells. -/
structure Row where
  id : String
  num : NumCol → Option ℚ

/-- drop_duplicates on id, keeping the first occurrence; seen collects
the ids already kept. -/
def dropDupAux (seen : List String) : List Row → List Row
  | [] => []
  | r :: rest =>
    if r.id ∈ seen then dropDupAux seen rest
    else r :: dropDupAux (r.id :: seen) rest

/-- drop_duplicates(subset=[id], keep=first). -/
def dropDupIds (df : List Row) : List Row := dropDupAux [] df

/-- The four critical columns of dropna. -/
def criticalSome (r : Row) : Bool :=
  (r.num .magnitude).isSome && (r.num .time).isSome &&
  (r.num .longitude).isSome && (r.num .latitude).isSome

/-- dropna(subset=critical_cols). -/
def dropnaCrit (df : List Row) : List Row := df.filter criticalSome

/-- Median of a list of non-null column values, as pandas computes it
(none for an empty list).  Only someness matters to the verified
properties, but the value follows the sort-and-middle rule. -/
def medianQ (l : List ℚ) : Option ℚ :=
  match l with
  | [] => none
  | _ :: _ =>
    let s := List.insertionSort (fun a b : ℚ => a ≤ b) l
    let n := s.length
    if n % 2 = 1 then some (s.getD (n / 2) 0)
    else some (((s.getD (n / 2 - 1) 0) + s.getD (n / 2) 0) / 2)

/-- Non-null values of one column. -/
def colVals (df : List Row) (c : NumCol) : List ℚ :=
  df.filterMap (fun r => r.num c)

/-- Replace the cell of column c by m when it is null. -/
def fillFn (c : NumCol) (m : ℚ) (r : Row) : Row :=
  { r with num := Function.update r.num c (some ((r.num c).getD m)) }

/-- fillna with the column median, performed only when the column has a
null (the source guard); a median of NaN (all-null column) fills
nothing. -/
def fillCol (df : List Row) (c : NumCol) : List Row :=
  if 0 < df.countP (fun r => (r.num c).isNone) then
    match medianQ (colVals df c) with
    | some m => df.map (fillFn c m)
    | none => df
  else df

/-- The median-imputation loop over all numeric columns. -/
def imputeAll (df : List Row) : List Row :=
  numColOrder.foldl fillCol df

/-- Magnitude at most 10, nulls dropped as pandas NaN comparison is
false. -/
def magLeTen (r : Row) : Bool :=
  match r.num .magnitude with
  | some m => decide (m ≤ 10)
  | none => false

/-- Magnitude at least 0, nulls dropped. -/
def magGeZero (r : Row) : Bool :=
  match r.num .magnitude with
  | some m => decide (0 ≤ m)
  | none => false

/-- Force one row's depth to its absolute value. -/
def absFn (r : Row) : Row :=
  { r with num := Function.update r.num .depth ((r.num .depth).map (fun q => |q|)) }

/-- Force depth to its absolute value. -/
def absDepth (df : List Row) : List Row :=
  df.map absFn

/-- clean_data: drop duplicate ids keeping the first, drop rows with a
null critical column, median-impute residual numeric nulls, keep
magnitudes within 0..10, force depth nonnegative. -/
def clean_data (df : List Row) : List Row :=
  absDepth (((imputeAll (dropnaCrit (dropDupIds df))).filter magLeTen).filter magGeZero)

/-! ## Feature transform: loading (transform_data.load_geojson) and the
zero-event failure of the transform entry point -/

/-- A GeoJSON feature as the loader reads it: the properties and geometry
coordinates it extracts.  A missing optional property is none. -/
structure GeoFeature where
  fid : String
  mag : Option ℚ
  timeMs : Option ℤ
  coordinates : List ℚ
  tsunami : Option ℚ
  significance : Option ℚ
  gap : Option ℚ
  dmin : Option ℚ
  rms : Option ℚ
  nst : Option ℚ

/-- A GeoJSON FeatureCollection. -/
structure GeoJson where
  features : List GeoFeature

/-- The record a feature is flattened to. -/
def featureToRow (f : GeoFeature) : Row :=
  { id := f.fid
    num := fun c =>
      match c with
      | .magnitude => f.mag
      | .time => f.timeMs.map (fun n => (n : ℚ))
      | .longitude => f.coordinates.get? 0
      | .latitude => f.coordinates.get? 1
      | .depth => f.coordinates.get? 2
      | .tsunami => some (f.tsunami.getD 0)
      | .significance => f.significance
      | .gap => f.gap
      | .dmin => f.dmin
      | .rms => f.rms
      | .nst => f.nst }

/-- load_geojson: raises ValueError when the feature list is empty,
otherwise flattens every feature to a record. -/
def load_geojson (path : String) (data : GeoJson) : Except String (List Row) :=
  if data.features.isEmpty then
    .error ("No features found in " ++ path)
  else
    .ok (data.features.map featureToRow)

/-- The transform entry point as far as the zero-event contract is
concerned: load, then run the total in-memory feature stages and the
cleaning stage (the feature-derivation stages are total functions of the
loaded table and are modelled on their own row shapes above; only the
load step can fail). -/
def transform_main (path : String) (data : GeoJson) : Except String (List Row) :=
  (load_geojson path data).map clean_data

/-! ## Interval extractor (download_historical.main)

The per-interval fetch is an oracle from the interval date pair to either
a feature list (identified by opaque ids) or an error message, standing
for fetch_interval which either returns parsed GeoJSON or raises.  The
loop body appends the outcome to the respective accumulator and always
continues; nothing in the loop or after it raises. -/

/-- Accumulated state of the extraction loop. -/
structure ExtractRun where
  all_features : List String
  successful : List (String × String × ℕ)
  failed : List (String × String × String)
deriving DecidableEq

/-- One iteration of the extraction loop over one interval. -/
def stepInterval (fetch : String → String → Except String (List String))
    (combine : Bool) (acc : ExtractRun) (iv : String × String) : ExtractRun :=
  match fetch iv.1 iv.2 with
  | .ok data =>
    { acc with
      all_features := acc.all_features ++ (if combine then data else [])
      successful := acc.successful ++ [(iv.1, iv.2, data.length)] }
  | .error msg =>
    { acc with failed := acc.failed ++ [(iv.1, iv.2, msg)] }

/-- The extraction main loop: fold over the intervals; every per-interval
exception is caught and recorded, so the run itself always returns
normally (modelled as ok). -/
def extract_main (fetch : String → String → Except String (List String))
    (combine : Bool) (ivs : List (String × String)) : Except String ExtractRun :=
  .ok (ivs.foldl (stepInterval fetch combine) ⟨[], [], []⟩)

/-- The merged dataset is built only when combine is set and at least one
feature was retrieved, annotated with the run metadata. -/
structure CombinedData where
  features : List String
  total_features : ℕ
  intervals_combined : ℕ
deriving DecidableEq

/-- Combined master dataset of a finished run. -/
def combineResult (combine : Bool) (run : ExtractRun) : Option CombinedData :=
  if combine && !run.all_features.isEmpty then
    some { features := run.all_features
           total_features := run.all_features.length
           intervals_combined := run.successful.length }
  else none

/-! ## Claim-side predicates and concrete fixtures -/

/-- A dataset contains a string value in some core column: the reading of
a non-numeric core value in the schema claim (nulls are the business of
the null check, not values). -/
def hasNonNumericCore (df : QFrame) : Prop :=
  ∃ r ∈ df,
    (∃ s, r.magnitude = .vstr s) ∨ (∃ s, r.time = .vstr s) ∨
    (∃ s, r.longitude = .vstr s) ∨ (∃ s, r.latitude = .vstr s)

/-- A fully numeric quality-gate row used by the fixtures. -/
def goodQRow : QRow :=
  { id := "ev", magnitude := .vfloat 5, time := .vint 1000,
    longitude := .vfloat 10, latitude := .vfloat 10, depth := .vfloat 5 }

/-- The quality-gate row with a null magnitude. -/
def nullMagRow : QRow := { goodQRow with magnitude := .vnone }

/-- The quality-gate row with a string magnitude. -/
def strMagRow : QRow := { goodQRow with magnitude := .vstr "bad" }

/-- A 100-row frame with exactly one percent null magnitudes. -/
def qf100 : QFrame := nullMagRow :: List.replicate 99 goodQRow

/-- A 99-row frame with no nulls. -/
def qf99 : QFrame := List.replicate 99 goodQRow

/-- A 99-row frame with one null magnitude: a null fraction just above
one percent. -/
def qf99null : QFrame := nullMagRow :: List.replicate 98 goodQRow

/-- The two-row frame whose second row has a non-numeric magnitude. -/
def c6frame : QFrame := [goodQRow, strMagRow]

/-- Small all-numeric frame for the aggregation fixture. -/
def c9frame : QFrame := [goodQRow, goodQRow]

/-- The quality result of the aggregation fixture. -/
def c9result : QCResult :=
  { row_count := 2, passed := false,
    violations := ["Row count is below minimum threshold"] }

/-- Two events exactly 24 hours apart: the boundary row of the rolling
window claim. -/
def c1boundary : List EventT := [⟨0, 1⟩, ⟨86400000, 3⟩]

/-- One event, used to witness the amended rolling property. -/
def c1single : List EventT := [⟨0, 2⟩]

/-- The three-event fixture of the end-to-end scenario: magnitudes 3.0,
4.5, 2.0 at hours 0, 6 and 30 (epoch milliseconds). -/
def c3fixture : List EventT := [⟨0, 3⟩, ⟨21600000, 9 / 2⟩, ⟨108000000, 2⟩]

/-- The three intervals of the partial-failure fixture. -/
def ivs3 : List (String × String) :=
  [("2018-01-01", "2018-12-31"), ("2019-01-01", "2019-12-31"),
   ("2020-01-01", "2020-12-31")]

/-- The fetch oracle of the partial-failure fixture: the second interval
always errors. -/
def fetch3 (s _e : String) : Except String (List String) :=
  if s = "2018-01-01" then .ok ["a1", "a2"]
  else if s = "2019-01-01" then .error "HTTP 503"
  else .ok ["c1"]

/-- Pairwise-distinct ids, the state drop_duplicates establishes. -/
def IdsDistinct (df : List Row) : Prop :=
  df.Pairwise (fun a b => a.id ≠ b.id)

/-- Every row has all four critical cells present. -/
def CritSome (df : List Row) : Prop :=
  ∀ r ∈ df, criticalSome r = true

/-- A column is either fully present or fully null: the state median
imputation leaves every numeric column in. -/
def StableAt (c : NumCol) (df : List Row) : Prop :=
  (∀ r ∈ df, (r.num c).isSome = true) ∨ (∀ r ∈ df, r.num c = none)

/-- Every magnitude is present and at most 10. -/
def MagHi (df : List Row) : Prop :=
  ∀ r ∈ df, magLeTen r = true

/-- Every magnitude is present and at least 0. -/
def MagLo (df : List Row) : Prop :=
  ∀ r ∈ df, magGeZero r = true

/-- Every depth cell is already its own absolute value. -/
def DepthAbsd (df : List Row) : Prop :=
  ∀ r ∈ df, (r.num NumCol.depth).map (fun q => |q|) = r.num NumCol.depth

/-! ## Helper lemmas -/

/-- Mapping a pointwise-identity function is the identity. -/
theorem map_id_on {α : Type} (f : α → α) :
    ∀ l : List α, (∀ x ∈ l, f x = x) → l.map f = l := by
  intro l
  induction l with
  | nil => intro _; rfl
  | cons x xs ih =>
    intro h
    rw [List.map_cons, h x (List.mem_cons_self _ _), ih (fun y hy => h y (List.mem_cons_of_mem _ hy))]

/-- Elements of the deduplicated list come from the input and avoid the
seen set. -/
theorem mem_dropDupAux : ∀ (l : List Row) (seen : List String) (r : Row),
    r ∈ dropDupAux seen l → r ∈ l ∧ r.id ∉ seen := by
  intro l
  induction l with
  | nil => intro seen r h; cases h
  | cons x xs ih =>
    intro seen r h
    unfold dropDupAux at h
    by_cases hx : x.id ∈ seen
    · rw [if_pos hx] at h
      obtain ⟨h1, h2⟩ := ih seen r h
      exact ⟨List.mem_cons_of_mem _ h1, h2⟩
    · rw [if_neg hx] at h
      rcases List.mem_cons.mp h with hr | hr
      · subst hr
        exact ⟨List.mem_cons_self _ _, hx⟩
      · obtain ⟨h1, h2⟩ := ih _ r hr
        refine ⟨List.mem_cons_of_mem _ h1, fun hc => h2 ?_⟩
        exact List.mem_cons_of_mem _ hc

/-- Deduplication yields pairwise-distinct ids. -/
theorem dropDupAux_pairwise : ∀ (l : List Row) (seen : List String),
    IdsDistinct (dropDupAux seen l) := by
  intro l
  induction l with
  | nil => intro seen; exact List.Pairwise.nil
  | cons x xs ih =>
    intro seen
    unfold dropDupAux
    by_cases hx : x.id ∈ seen
    · rw [if_pos hx]; exact ih seen
    · rw [if_neg hx]
      refine List.pairwise_cons.mpr ⟨?_, ih _⟩
      intro q hq
      have := (mem_dropDupAux xs (x.id :: seen) q hq).2
      intro hEq
      exact this (hEq ▸ List.mem_cons_self _ _)

/-- Deduplicating a list of pairwise-distinct ids changes nothing. -/
theorem dropDupAux_id : ∀ (l : List Row) (seen : List String),
    IdsDistinct l → (∀ r ∈ l, r.id ∉ seen) → dropDupAux seen l = l := by
  intro l
  induction l with
  | nil => intro seen _ _; rfl
  | cons x xs ih =>
    intro seen hpw hseen
    rw [IdsDistinct, List.pairwise_cons] at hpw
    unfold dropDupAux
    rw [if_neg (hseen x (List.mem_cons_self _ _))]
    congr 1
    refine ih _ hpw.2 ?_
    intro q hq hmem
    rcases List.mem_cons.mp hmem with hEq | hmem2
    · exact hpw.1 q hq hEq.symm
    · exact hseen q (List.mem_cons_of_mem _ hq) hmem2

/-- dropDupIds leaves an already-deduplicated table unchanged. -/
theorem dropDupIds_id (l : List Row) (h : IdsDistinct l) : dropDupIds l = l :=
  dropDupAux_id l [] h (by simp)

/-- The median of a nonempty value list exists. -/
theorem medianQ_eq_none_iff (l : List ℚ) : medianQ l = none ↔ l = [] := by
  cases l with
  | nil => simp [medianQ]
  | cons x xs =>
    simp only [medianQ]
    split <;> simp

/-- fillCol either leaves the table alone or maps fillFn over it. -/
theorem fillCol_cases (df : List Row) (c : NumCol) :
    fillCol df c = df ∨ ∃ m, fillCol df c = df.map (fillFn c m) := by
  unfold fillCol
  split
  · cases hm : medianQ (colVals df c) with
    | none => exact Or.inl rfl
    | some m => exact Or.inr ⟨m, rfl⟩
  · exact Or.inl rfl

/-- The longitude conjunct of pacific_ring is unsatisfiable. -/
theorem lonConjFalse (lon : Option ℚ) :
    (cmpGeB lon 120 && cmpLeB lon (-70)) = false := by
  cases lon with
  | none => rfl
  | some p =>
    rcases le_or_lt 120 p with h | h
    · have h2 : ¬ p ≤ (-70 : ℚ) := by linarith
      simp [cmpGeB, cmpLeB, h2]
    · have h2 : ¬ (120 : ℚ) ≤ p := not_le.mpr h
      simp [cmpGeB, cmpLeB, h2]

/-- The indicator is 1 exactly when the latitude comparison holds. -/
theorem pacific_ring_eq_one_iff (lon lat : Option ℚ) :
    pacific_ring lon lat = 1 ↔ ∃ q, lat = some q ∧ -60 ≤ q ∧ q ≤ 60 := by
  unfold pacific_ring
  rw [lonConjFalse, Bool.false_or]
  cases lat with
  | none => simp [cmpGeB]
  | some q =>
    simp only [cmpGeB, cmpLeB, Bool.and_eq_true, decide_eq_true_eq]
    split_ifs with h
    · simpa using ⟨h.1, h.2⟩
    · simp only [Bool.and_eq_true] at h
      constructor
      · intro h0; exact absurd h0 (by norm_num)
      · rintro ⟨q', hq', h1, h2⟩
        cases hq'
        exact absurd ⟨h1, h2⟩ h

/-! ## Verified properties of the claims -/

/-- C10: for every input row, the pacific_ring indicator of the Feature
Transform is 1 exactly when the latitude lies in the closed range -60..60
(a null latitude lies in no range and yields 0), and the longitude never
influences the indicator, its conjunct being unsatisfiable. -/
theorem pacific_ring_latitude_only :
    (∀ (df : List LocRow), ∀ o ∈ create_location_features df,
      (o.pacific_ring = 1 ↔ ∃ q, o.latitude = some q ∧ -60 ≤ q ∧ q ≤ 60)) ∧
    (∀ v v' lat : Option ℚ, pacific_ring v lat = pacific_ring v' lat) := by
  constructor
  · intro df o ho
    simp only [create_location_features, List.mem_map] at ho
    obtain ⟨r, _, rfl⟩ := ho
    exact pacific_ring_eq_one_iff r.longitude r.latitude
  · intro v v' lat
    unfold pacific_ring
    rw [lonConjFalse, lonConjFalse]

/-- C7: a transform input with zero events fails loudly with the
zero-feature error from load_geojson rather than producing a table. -/
theorem transform_zero_events (path : String) (g : GeoJson)
    (h : g.features = []) :
    transform_main path g = .error ("No features found in " ++ path) := by
  simp [transform_main, load_geojson, h, Except.map]

/-- Witness: the zero-event failure on a concrete empty collection. -/
theorem transform_zero_events_witness :
    (GeoJson.mk []).features = [] ∧
    transform_main "combined.geojson" (GeoJson.mk []) =
      .error ("No features found in " ++ "combined.geojson") :=
  ⟨rfl, transform_zero_events "combined.geojson" (GeoJson.mk []) rfl⟩

/-- Failed intervals accumulated by the extraction loop, in order, each
with its reason. -/
theorem extractFold_failed (fetch : String → String → Except String (List String))
    (combine : Bool) (ivs : List (String × String)) (acc : ExtractRun) :
    (ivs.foldl (stepInterval fetch combine) acc).failed =
      acc.failed ++ ivs.filterMap (fun iv =>
        match fetch iv.1 iv.2 with
        | .ok _ => none
        | .error msg => some (iv.1, iv.2, msg)) := by
  induction ivs generalizing acc with
  | nil => simp
  | cons iv rest ih =>
    simp only [List.foldl_cons, List.filterMap_cons]
    cases hf : fetch iv.1 iv.2 with
    | ok d => simp [stepInterval, hf, ih]
    | error m => simp [stepInterval, hf, ih]

/-- Successful intervals accumulated by the extraction loop, in order,
each with its feature count. -/
theorem extractFold_successful (fetch : String → String → Except String (List String))
    (combine : Bool) (ivs : List (String × String)) (acc : ExtractRun) :
    (ivs.foldl (stepInterval fetch combine) acc).successful =
      acc.successful ++ ivs.filterMap (fun iv =>
        match fetch iv.1 iv.2 with
        | .ok d => some (iv.1, iv.2, d.length)
        | .error _ => none) := by
  induction ivs generalizing acc with
  | nil => simp
  | cons iv rest ih =>
    simp only [List.foldl_cons, List.filterMap_cons]
    cases hf : fetch iv.1 iv.2 with
    | ok d => simp [stepInterval, hf, ih]
    | error m => simp [stepInterval, hf, ih]

/-- Merged features accumulated by the extraction loop in merge mode:
exactly the concatenation of the successful intervals' feature lists. -/
theorem extractFold_features (fetch : String → String → Except String (List String))
    (ivs : List (String × String)) (acc : ExtractRun) :
    (ivs.foldl (stepInterval fetch true) acc).all_features =
      acc.all_features ++ (ivs.filterMap (fun iv =>
        match fetch iv.1 iv.2 with
        | .ok d => some d
        | .error _ => none)).flatten := by
  induction ivs generalizing acc with
  | nil => simp
  | cons iv rest ih =>
    simp only [List.foldl_cons, List.filterMap_cons]
    cases hf : fetch iv.1 iv.2 with
    | ok d => simp [stepInterval, hf, ih]
    | error m => simp [stepInterval, hf, ih]

/-- C4: on partial fetch failure the extractor records every failed
interval with its reason and continues; the merged dataset holds exactly
the successful intervals' events in order; the summary counts are the
number of successes out of all intervals; and the run signals an error to
its caller only if all intervals fail (indeed it never signals one).  The
second conjunct instantiates the 3-interval scenario where only interval
2 errors: the merge holds intervals 1 and 3 and the summary reads 2 of
3. -/
theorem extract_partial_failure :
    (∀ (fetch : String → String → Except String (List String))
      (ivs : List (String × String)),
      ∃ run, extract_main fetch true ivs = .ok run ∧
        run.failed = ivs.filterMap (fun iv =>
          match fetch iv.1 iv.2 with
          | .ok _ => none
          | .error msg => some (iv.1, iv.2, msg)) ∧
        run.all_features = (ivs.filterMap (fun iv =>
          match fetch iv.1 iv.2 with
          | .ok d => some d
          | .error _ => none)).flatten ∧
        run.successful.length + run.failed.length = ivs.length ∧
        (∀ e, extract_main fetch true ivs = .error e →
          ∀ iv ∈ ivs, ∃ msg, fetch iv.1 iv.2 = .error msg)) ∧
    (∃ run3, extract_main fetch3 true ivs3 = .ok run3 ∧
      run3.all_features = ["a1", "a2", "c1"] ∧
      run3.successful.length = 2 ∧ ivs3.length = 3 ∧
      run3.failed = [("2019-01-01", "2019-12-31", "HTTP 503")]) := by
  constructor
  · intro fetch ivs
    refine ⟨ivs.foldl (stepInterval fetch true) ⟨[], [], []⟩, rfl, ?_, ?_, ?_, ?_⟩
    · simpa using extractFold_failed fetch true ivs ⟨[], [], []⟩
    · simpa using extractFold_features fetch ivs ⟨[], [], []⟩
    · rw [extractFold_failed fetch true ivs ⟨[], [], []⟩,
        extractFold_successful fetch true ivs ⟨[], [], []⟩]
      simp only [List.nil_append]
      induction ivs with
      | nil => rfl
      | cons iv rest ih =>
        simp only [List.filterMap_cons]
        cases hf : fetch iv.1 iv.2 with
        | ok d =>
          simp only [hf, List.length_cons]
          omega
        | error m =>
          simp only [hf, List.length_cons]
          omega
    · intro e he
      exact absurd he (by simp [extract_main])
  · refine ⟨_, rfl, ?_, ?_, rfl, ?_⟩ <;> decide

/-- A column with no nulls contributes no null-check violation. -/
theorem nullColViol_of_no_nulls (df : QFrame) (name : String)
    (get : QRow → PyVal) (h : colNullCount df get = 0) :
    nullColViol df name get = [] := by
  unfold nullColViol colNullFrac
  rw [h]
  norm_num [NULL_THRESHOLD]

/-- C5: the row-count check passes at exactly MIN_ROWS rows and fails at
99; the null check passes a frame whose magnitude column is exactly one
percent null (other key columns clean) and fails whenever the magnitude
null fraction strictly exceeds one percent. -/
theorem quality_gate_boundaries :
    (∀ df : QFrame, df.length = 100 → (check_row_count df).1 = true) ∧
    (∀ df : QFrame, df.length = 99 → (check_row_count df).1 = false) ∧
    (∀ df : QFrame,
      colNullCount df (fun r => r.magnitude) * 100 = df.length →
      colNullCount df (fun r => r.time) = 0 →
      colNullCount df (fun r => r.longitude) = 0 →
      colNullCount df (fun r => r.latitude) = 0 →
      (check_null_values df).1 = true) ∧
    (∀ df : QFrame, df.length < colNullCount df (fun r => r.magnitude) * 100 →
      (check_null_values df).1 = false) := by
  refine ⟨?_, ?_, ?_, ?_⟩
  · intro df h
    simp [check_row_count, MIN_ROWS, h]
  · intro df h
    simp [check_row_count, MIN_ROWS, h]
  · intro df hm ht hlo hla
    have violmag : nullColViol df "magnitude" (fun r => r.magnitude) = [] := by
      rcases Nat.eq_zero_or_pos (colNullCount df (fun r => r.magnitude)) with h0 | hpos
      · exact nullColViol_of_no_nulls df _ _ h0
      · have hcQ : (0 : ℚ) < (colNullCount df (fun r => r.magnitude) : ℚ) := by
          exact_mod_cast hpos
        have h1 : colNullFrac df (fun r => r.magnitude) = 1 / 100 := by
          unfold colNullFrac
          rw [show ((df.length : ℚ)) =
              (colNullCount df (fun r => r.magnitude) : ℚ) * 100 from by
            exact_mod_cast hm.symm]
          rw [div_eq_div_iff (by positivity) (by norm_num)]
          ring
        norm_num [nullColViol, h1, NULL_THRESHOLD]
    simp [check_null_values, violmag, nullColViol_of_no_nulls df _ _ ht,
      nullColViol_of_no_nulls df _ _ hlo, nullColViol_of_no_nulls df _ _ hla]
  · intro df h
    have hlen : 0 < df.length := by
      rcases df with _ | ⟨r, rest⟩
      · simp [colNullCount] at h
      · simp
    have hfrac : NULL_THRESHOLD < colNullFrac df (fun r => r.magnitude) := by
      unfold NULL_THRESHOLD colNullFrac
      rw [div_lt_div_iff₀ (by norm_num) (by exact_mod_cast hlen)]
      rw [one_mul]
      exact_mod_cast h
    have violmag : nullColViol df "magnitude" (fun r => r.magnitude) =
        ["Column magnitude has too many null values"] := by
      simp [nullColViol, hfrac]
    simp [check_null_values, violmag]

/-- Witness: the boundary frames. qf100 has 100 rows with exactly one
null magnitude, qf99 has 99 clean rows, qf99null has one null magnitude
among 99 rows (a fraction just above one percent). -/
theorem quality_gate_boundaries_witness :
    (check_row_count qf100).1 = true ∧ (check_row_count qf99).1 = false ∧
    (check_null_values qf100).1 = true ∧ (check_null_values qf99null).1 = false :=
  ⟨quality_gate_boundaries.1 qf100 (by decide),
   quality_gate_boundaries.2.1 qf99 (by decide),
   quality_gate_boundaries.2.2.1 qf100 (by decide) (by decide) (by decide) (by decide),
   quality_gate_boundaries.2.2.2 qf99null (by decide)⟩

/-- C9: whenever run_quality_checks returns a report, its aggregate
violation list is exactly the concatenation of the failing checks'
messages in declaration order: row count, then nulls, then schema, then
ranges. -/
theorem violations_declaration_order (df : QFrame) (res : QCResult)
    (h : run_quality_checks df = .ok res) :
    res.violations =
      rowCountMsgs df ++ nullCheckMsgs df ++ schemaCheckMsgs df ++ rangeCheckMsgs df := by
  unfold run_quality_checks at h
  cases hr : check_value_ranges df with
  | error e =>
    rw [hr] at h
    cases h
  | ok c4 =>
    rw [hr] at h
    cases h
    unfold rowCountMsgs nullCheckMsgs schemaCheckMsgs rangeCheckMsgs
    rw [hr]

/-- Witness: the declaration-order aggregation on a concrete two-row
frame whose only failing check is the row count. -/
theorem violations_declaration_order_witness :
    run_quality_checks c9frame = .ok c9result ∧
    c9result.violations =
      rowCountMsgs c9frame ++ nullCheckMsgs c9frame ++
        schemaCheckMsgs c9frame ++ rangeCheckMsgs c9frame := by
  have hrun : run_quality_checks c9frame = .ok c9result := by
    norm_num [run_quality_checks, check_row_count, MIN_ROWS, check_null_values, nullColViol,
      colNullFrac, colNullCount, NULL_THRESHOLD, c9frame, goodQRow, PyVal.isNull,
      check_schema, schemaColViol, firstStored, colDtype, storedVal, isinstFloatInt,
      isinstTime, check_value_ranges, countOutOfRange, PyVal.isNumeric, PyVal.isInt,
      c9result, List.countP_cons, bind, Except.bind, pure, Except.pure]
  exact ⟨hrun, violations_declaration_order c9frame c9result hrun⟩

/-- The filled cell of the imputed column is always present. -/
theorem fillFn_num_same (c : NumCol) (m : ℚ) (r : Row) :
    (fillFn c m r).num c = some ((r.num c).getD m) := by
  unfold fillFn
  exact Function.update_same c _ r.num

/-- Cells of other columns are untouched by fillFn. -/
theorem fillFn_num_other (c c' : NumCol) (hne : c' ≠ c) (m : ℚ) (r : Row) :
    (fillFn c m r).num c' = r.num c' := by
  unfold fillFn
  exact Function.update_noteq hne _ r.num

/-- fillFn keeps a present cell present, in any column. -/
theorem fillFn_num_isSome (c : NumCol) (m : ℚ) (r : Row) (c' : NumCol)
    (h : (r.num c').isSome = true) : ((fillFn c m r).num c').isSome = true := by
  by_cases hc : c' = c
  · subst hc
    rw [fillFn_num_same]
    rfl
  · rw [fillFn_num_other c c' hc]
    exact h

/-- A table that is stable at a column is unchanged by imputing it. -/
theorem fillCol_id_of_stable (df : List Row) (c : NumCol) (h : StableAt c df) :
    fillCol df c = df := by
  unfold fillCol
  rcases h with h | h
  · rw [if_neg]
    simp only [not_lt, Nat.le_zero, List.countP_eq_zero]
    intro r hr
    have hne := Option.ne_none_iff_isSome.mpr (h r hr)
    simpa using hne
  · have hcv : colVals df c = [] := by
      simp only [colVals, List.filterMap_eq_nil_iff]
      intro r hr
      exact h r hr
    rw [hcv]
    simp only [medianQ]
    split <;> rfl

/-- After imputing a column the table is stable at it. -/
theorem fillCol_stableAt (df : List Row) (c : NumCol) : StableAt c (fillCol df c) := by
  unfold fillCol
  split
  · cases hm : medianQ (colVals df c) with
    | none =>
      right
      intro r hr
      have hcv : colVals df c = [] := (medianQ_eq_none_iff _).mp hm
      simp only [colVals, List.filterMap_eq_nil_iff] at hcv
      exact hcv r hr
    | some m =>
      left
      intro r hr
      obtain ⟨r0, _, rfl⟩ := List.mem_map.mp hr
      rw [fillFn_num_same]
      rfl
  · rename_i hguard
    simp only [not_lt, Nat.le_zero, List.countP_eq_zero] at hguard
    left
    intro r hr
    have hne := hguard r hr
    exact Option.ne_none_iff_isSome.mp (by simpa using hne)

/-- Imputing one column does not disturb stability at another. -/
theorem fillCol_preserves_stableAt (df : List Row) (c c' : NumCol)
    (hne : c ≠ c') (h : StableAt c df) : StableAt c (fillCol df c') := by
  rcases fillCol_cases df c' with hcase | ⟨m, hcase⟩
  · rw [hcase]; exact h
  · rw [hcase]
    rcases h with h | h
    · left
      intro r hr
      obtain ⟨r0, hr0, rfl⟩ := List.mem_map.mp hr
      rw [fillFn_num_other c' c hne]
      exact h r0 hr0
    · right
      intro r hr
      obtain ⟨r0, hr0, rfl⟩ := List.mem_map.mp hr
      rw [fillFn_num_other c' c hne]
      exact h r0 hr0

/-- Stability at c holds after the imputation fold whenever c is one of
the folded columns or the input is already stable at c. -/
theorem foldl_fillCol_stableAt :
    ∀ (cols : List NumCol) (df : List Row) (c : NumCol),
      (c ∈ cols ∨ StableAt c df) → StableAt c (List.foldl fillCol df cols) := by
  intro cols
  induction cols with
  | nil =>
    intro df c h
    rcases h with h | h
    · cases h
    · exact h
  | cons c' cols ih =>
    intro df c h
    rw [List.foldl_cons]
    by_cases hc : c = c'
    · subst hc
      exact ih _ c (Or.inr (fillCol_stableAt df c))
    · rcases h with h | h
      · rcases List.mem_cons.mp h with hEq | hmem
        · exact absurd hEq hc
        · exact ih _ c (Or.inl hmem)
      · exact ih _ c (Or.inr (fillCol_preserves_stableAt df c c' hc h))

/-- A table stable at every column passes the imputation fold unchanged. -/
theorem foldl_fillCol_id :
    ∀ (cols : List NumCol) (df : List Row), (∀ c, StableAt c df) →
      List.foldl fillCol df cols = df := by
  intro cols
  induction cols with
  | nil => intro df _; rfl
  | cons c' cols ih =>
    intro df h
    rw [List.foldl_cons, fillCol_id_of_stable df c' (h c')]
    exact ih df h

/-- Any property preserved by every fillCol step is preserved by the
imputation fold. -/
theorem foldl_fillCol_preserve (P : List Row → Prop)
    (hP : ∀ df c, P df → P (fillCol df c)) :
    ∀ (cols : List NumCol) (df : List Row), P df → P (List.foldl fillCol df cols) := by
  intro cols
  induction cols with
  | nil => intro df h; exact h
  | cons c' cols ih =>
    intro df h
    rw [List.foldl_cons]
    exact ih _ (hP df c' h)

/-- Every numeric column is in the imputation order. -/
theorem mem_numColOrder (c : NumCol) : c ∈ numColOrder := by
  cases c <;> simp [numColOrder]

/-- fillCol preserves pairwise-distinct ids. -/
theorem fillCol_idsDistinct (df : List Row) (c : NumCol)
    (h : IdsDistinct df) : IdsDistinct (fillCol df c) := by
  rcases fillCol_cases df c with hc | ⟨m, hc⟩
  · rw [hc]; exact h
  · rw [hc, IdsDistinct, List.pairwise_map]
    exact h

/-- fillCol preserves the presence of the critical cells. -/
theorem fillCol_critSome (df : List Row) (c : NumCol)
    (h : CritSome df) : CritSome (fillCol df c) := by
  rcases fillCol_cases df c with hc | ⟨m, hc⟩
  · rw [hc]; exact h
  · rw [hc]
    intro r hr
    obtain ⟨r0, hr0, rfl⟩ := List.mem_map.mp hr
    have h0 := h r0 hr0
    unfold criticalSome at h0 ⊢
    simp only [Bool.and_eq_true] at h0 ⊢
    obtain ⟨⟨⟨h1, h2⟩, h3⟩, h4⟩ := h0
    exact ⟨⟨⟨fillFn_num_isSome _ _ _ _ h1, fillFn_num_isSome _ _ _ _ h2⟩,
      fillFn_num_isSome _ _ _ _ h3⟩, fillFn_num_isSome _ _ _ _ h4⟩

/-- The imputation loop keeps ids pairwise distinct. -/
theorem imputeAll_idsDistinct (df : List Row) (h : IdsDistinct df) :
    IdsDistinct (imputeAll df) :=
  foldl_fillCol_preserve IdsDistinct fillCol_idsDistinct numColOrder df h

/-- The imputation loop keeps the critical cells present. -/
theorem imputeAll_critSome (df : List Row) (h : CritSome df) :
    CritSome (imputeAll df) :=
  foldl_fillCol_preserve CritSome fillCol_critSome numColOrder df h

/-- After the imputation loop every column is stable. -/
theorem imputeAll_stable (df : List Row) (c : NumCol) : StableAt c (imputeAll df) :=
  foldl_fillCol_stableAt numColOrder df c (Or.inl (mem_numColOrder c))

/-- The imputation loop is the identity on a fully stable table. -/
theorem imputeAll_id (df : List Row) (h : ∀ c, StableAt c df) : imputeAll df = df :=
  foldl_fillCol_id numColOrder df h

/-- Stability at a column survives any filtering. -/
theorem filter_stableAt (p : Row → Bool) (df : List Row) (c : NumCol)
    (h : StableAt c df) : StableAt c (df.filter p) := by
  rcases h with h | h
  · exact Or.inl fun r hr => h r (List.mem_of_mem_filter hr)
  · exact Or.inr fun r hr => h r (List.mem_of_mem_filter hr)

/-- The rows of absDepth are the absFn images of the input rows. -/
theorem absDepth_num_depth (df : List Row) (r : Row) (hr : r ∈ absDepth df) :
    ∃ r0 ∈ df, r = absFn r0 := by
  unfold absDepth at hr
  obtain ⟨r0, hr0, rfl⟩ := List.mem_map.mp hr
  exact ⟨r0, hr0, rfl⟩

/-- The cell function of an absFn image. -/
theorem absFn_num (r : Row) :
    (absFn r).num =
      Function.update r.num NumCol.depth ((r.num NumCol.depth).map (fun q => |q|)) :=
  rfl

/-- absDepth leaves a table whose depths are already absolute values
unchanged. -/
theorem absDepth_id (df : List Row) (h : DepthAbsd df) : absDepth df = df := by
  unfold absDepth
  apply map_id_on
  intro r hr
  unfold absFn
  rw [h r hr, Function.update_eq_self]

/-- After absDepth every depth cell is its own absolute value. -/
theorem absDepth_establishes (df : List Row) : DepthAbsd (absDepth df) := by
  intro r hr
  obtain ⟨r0, _, rfl⟩ := absDepth_num_depth df r hr
  show ((absFn r0).num NumCol.depth).map (fun q => |q|) = (absFn r0).num NumCol.depth
  rw [absFn_num, Function.update_same]
  cases hq : r0.num NumCol.depth with
  | none => rfl
  | some q => simp [abs_abs]

/-- absDepth keeps ids pairwise distinct. -/
theorem absDepth_idsDistinct (df : List Row) (h : IdsDistinct df) :
    IdsDistinct (absDepth df) := by
  unfold absDepth
  rw [IdsDistinct, List.pairwise_map]
  exact h

/-- absDepth does not change a non-depth cell. -/
theorem absDepth_num_other (r0 : Row) (c : NumCol) (hne : c ≠ NumCol.depth) :
    (absFn r0).num c = r0.num c :=
  Function.update_noteq hne _ r0.num

/-- absDepth keeps the critical cells present. -/
theorem absDepth_critSome (df : List Row) (h : CritSome df) :
    CritSome (absDepth df) := by
  intro r hr
  obtain ⟨r0, hr0, rfl⟩ := absDepth_num_depth df r hr
  have h0 := h r0 hr0
  unfold criticalSome at h0 ⊢
  rw [absDepth_num_other r0 NumCol.magnitude (by simp),
    absDepth_num_other r0 NumCol.time (by simp),
    absDepth_num_other r0 NumCol.longitude (by simp),
    absDepth_num_other r0 NumCol.latitude (by simp)]
  exact h0

/-- absDepth preserves stability at every column. -/
theorem absDepth_stableAt (df : List Row) (c : NumCol) (h : StableAt c df) :
    StableAt c (absDepth df) := by
  by_cases hc : c = NumCol.depth
  · subst hc
    rcases h with h | h
    · left
      intro r hr
      obtain ⟨r0, hr0, rfl⟩ := absDepth_num_depth df r hr
      show ((absFn r0).num NumCol.depth).isSome = true
      rw [absFn_num, Function.update_same]
      have hsome := h r0 hr0
      cases hq : r0.num NumCol.depth with
      | none => rw [hq] at hsome; cases hsome
      | some q => rfl
    · right
      intro r hr
      obtain ⟨r0, hr0, rfl⟩ := absDepth_num_depth df r hr
      show (absFn r0).num NumCol.depth = none
      rw [absFn_num, Function.update_same, h r0 hr0]
      rfl
  · rcases h with h | h
    · left
      intro r hr
      obtain ⟨r0, hr0, rfl⟩ := absDepth_num_depth df r hr
      rw [absDepth_num_other r0 c hc]
      exact h r0 hr0
    · right
      intro r hr
      obtain ⟨r0, hr0, rfl⟩ := absDepth_num_depth df r hr
      rw [absDepth_num_other r0 c hc]
      exact h r0 hr0

/-- absDepth does not change the magnitude filters. -/
theorem absDepth_magHi (df : List Row) (h : MagHi df) : MagHi (absDepth df) := by
  intro r hr
  obtain ⟨r0, hr0, rfl⟩ := absDepth_num_depth df r hr
  unfold magLeTen
  rw [absDepth_num_other r0 NumCol.magnitude (by simp)]
  exact h r0 hr0

/-- absDepth does not change the lower magnitude filter. -/
theorem absDepth_magLo (df : List Row) (h : MagLo df) : MagLo (absDepth df) := by
  intro r hr
  obtain ⟨r0, hr0, rfl⟩ := absDepth_num_depth df r hr
  unfold magGeZero
  rw [absDepth_num_other r0 NumCol.magnitude (by simp)]
  exact h r0 hr0

/-- Filtering preserves pairwise-distinct ids. -/
theorem idsDistinct_filter (p : Row → Bool) (df : List Row)
    (h : IdsDistinct df) : IdsDistinct (df.filter p) := by
  unfold IdsDistinct at h ⊢
  exact h.sublist (List.filter_sublist _)

/-- Filtering preserves the presence of critical cells. -/
theorem critSome_filter (p : Row → Bool) (df : List Row)
    (h : CritSome df) : CritSome (df.filter p) :=
  fun r hr => h r (List.mem_of_mem_filter hr)

/-- The dropna step establishes the critical cells. -/
theorem dropnaCrit_critSome (df : List Row) : CritSome (dropnaCrit df) :=
  fun _ hr => List.of_mem_filter hr

/-- The dropna step is the identity once the critical cells are present. -/
theorem dropnaCrit_id (df : List Row) (h : CritSome df) : dropnaCrit df = df :=
  List.filter_eq_self.mpr h

/-- Floor division of one second before a midnight: the previous day. -/
theorem fdiv_mul_sub_one (m : ℤ) : (86400 * m - 1).fdiv 86400 = m - 1 := by
  rw [Int.fdiv_eq_ediv _ (by norm_num)]
  omega

/-- Floor division of a midnight: its day index. -/
theorem fdiv_mul_self (m : ℤ) : (86400 * m).fdiv 86400 = m :=
  Int.mul_fdiv_cancel_left m (by norm_num)

/-- The seconds-level loop of generate_date_intervals agrees with its
day-index formulation whenever the state is a midnight. -/
theorem genLoop_eq_dayLoop (k : ℤ) (hk : 1 ≤ k) (L : ℤ) :
    ∀ (fuel : ℕ) (D : ℤ), 0 ≤ D →
      genLoop fuel k (86400 * D) (86400 * L - 1) = dayLoop fuel k D L := by
  intro fuel
  induction fuel with
  | zero => intro D _; rfl
  | succ fuel ih =>
    intro D hD
    simp only [genLoop, dayLoop]
    by_cases hDL : D < L
    · rw [if_pos (show 86400 * D < 86400 * L - 1 by omega), if_pos hDL]
      have hce : min (86400 * D + 86400 * (365 * k) - 1) (86400 * L - 1) =
          86400 * min (D + 365 * k) L - 1 := by
        rcases le_total (D + 365 * k) L with h | h
        · rw [min_eq_left (by nlinarith), min_eq_left h]
          ring
        · rw [min_eq_right (by nlinarith), min_eq_right h]
      rw [hce]
      have hM0 : 0 ≤ min (D + 365 * k) L := by
        rcases le_total (D + 365 * k) L with h | h
        · rw [min_eq_left h]; nlinarith
        · rw [min_eq_right h]; omega
      have hfd1 : (86400 * min (D + 365 * k) L - 1 - 86400 * D).fdiv 86400 =
          min (D + 365 * k) L - D - 1 := by
        rw [show 86400 * min (D + 365 * k) L - 1 - 86400 * D =
            86400 * (min (D + 365 * k) L - D) - 1 by ring, fdiv_mul_sub_one]
      rw [hfd1, fdiv_mul_self, fdiv_mul_sub_one,
        show 86400 * min (D + 365 * k) L - 1 + 1 = 86400 * min (D + 365 * k) L by ring]
      have hkept : (1 ≤ min (D + 365 * k) L - D - 1) ↔ (D + 2 ≤ min (D + 365 * k) L) := by
        omega
      have hstop : (86400 * L - 1 < 86400 * min (D + 365 * k) L) ↔
          (L ≤ min (D + 365 * k) L) := by omega
      rw [ih (min (D + 365 * k) L) hM0]
      by_cases h2 : D + 2 ≤ min (D + 365 * k) L
      · rw [if_pos (hkept.mpr h2), if_pos h2]
        by_cases h3 : L ≤ min (D + 365 * k) L
        · rw [if_pos (hstop.mpr h3), if_pos h3]
        · rw [if_neg (fun hc => h3 (hstop.mp hc)), if_neg h3]
      · rw [if_neg (fun hc => h2 (hkept.mp hc)), if_neg h2]
        by_cases h3 : L ≤ min (D + 365 * k) L
        · rw [if_pos (hstop.mpr h3), if_pos h3]
        · rw [if_neg (fun hc => h3 (hstop.mp hc)), if_neg h3]
    · rw [if_neg (show ¬ 86400 * D < 86400 * L - 1 by omega), if_neg hDL]

/-- Structural invariants of the day-index loop: the produced intervals
form a contiguous chain from D, stay inside D..L-1 with end at least
start, cover every day up to L-2, and are nonempty whenever at least two
days remain. -/
theorem dayLoop_props (k : ℤ) (hk : 1 ≤ k) :
    ∀ (fuel : ℕ) (D L : ℤ), L ≤ D + fuel →
      contigFrom D (dayLoop fuel k D L) ∧
      (∀ p ∈ dayLoop fuel k D L, D ≤ p.1 ∧ p.1 ≤ p.2 ∧ p.2 < L) ∧
      (∀ d : ℤ, D ≤ d → d + 2 ≤ L → ∃ p ∈ dayLoop fuel k D L, p.1 ≤ d ∧ d ≤ p.2) ∧
      (D + 2 ≤ L → dayLoop fuel k D L ≠ []) := by
  intro fuel
  induction fuel with
  | zero =>
    intro D L hfuel
    refine ⟨trivial, by simp [dayLoop], ?_, ?_⟩
    · intro d hd h2
      omega
    · intro h2
      omega
  | succ fuel ih =>
    intro D L hfuel
    by_cases hDL : D < L
    · have hM1 : D + 1 ≤ min (D + 365 * k) L := by
        rcases le_total (D + 365 * k) L with h | h
        · rw [min_eq_left h]; nlinarith
        · rw [min_eq_right h]; omega
      have hML : min (D + 365 * k) L ≤ L := min_le_right _ _
      by_cases h3 : L ≤ min (D + 365 * k) L
      · have hMeq : min (D + 365 * k) L = L := le_antisymm hML h3
        by_cases h2 : D + 2 ≤ min (D + 365 * k) L
        · have hres : dayLoop (fuel + 1) k D L = [(D, L - 1)] := by
            simp only [dayLoop]
            rw [if_pos hDL, if_pos h2, if_pos h3, hMeq, List.append_nil]
          rw [hres]
          refine ⟨⟨rfl, trivial⟩, ?_, ?_, ?_⟩
          · intro p hp
            simp only [List.mem_singleton] at hp
            subst hp
            refine ⟨le_refl _, by omega, by omega⟩
          · intro d hd hd2
            exact ⟨(D, L - 1), List.mem_singleton_self _, hd, by omega⟩
          · intro _
            simp
        · have hres : dayLoop (fuel + 1) k D L = [] := by
            simp only [dayLoop]
            rw [if_pos hDL, if_neg h2, if_pos h3, List.nil_append]
          rw [hres]
          refine ⟨trivial, by simp, ?_, ?_⟩
          · intro d hd hd2
            omega
          · intro h2c
            omega
      · have hMlt : min (D + 365 * k) L < L := lt_of_not_le h3
        have hMeq : min (D + 365 * k) L = D + 365 * k := by
          rcases le_total (D + 365 * k) L with h | h
          · exact min_eq_left h
          · rw [min_eq_right h] at hMlt; omega
        have h2 : D + 2 ≤ min (D + 365 * k) L := by nlinarith [hMeq]
        have hres : dayLoop (fuel + 1) k D L =
            (D, min (D + 365 * k) L - 1) ::
              dayLoop fuel k (min (D + 365 * k) L) L := by
          simp only [dayLoop]
          rw [if_pos hDL, if_pos h2, if_neg h3, List.singleton_append]
        obtain ⟨ihc, ihb, ihcov, ihne⟩ := ih (min (D + 365 * k) L) L (by omega)
        rw [hres]
        refine ⟨⟨rfl, ?_⟩, ?_, ?_, ?_⟩
        · rw [show min (D + 365 * k) L - 1 + 1 = min (D + 365 * k) L by ring]
          exact ihc
        · intro p hp
          rcases List.mem_cons.mp hp with hp | hp
          · subst hp
            exact ⟨le_refl _, by omega, by omega⟩
          · obtain ⟨hb1, hb2, hb3⟩ := ihb p hp
            exact ⟨by omega, hb2, hb3⟩
        · intro d hd hd2
          by_cases hdM : d ≤ min (D + 365 * k) L - 1
          · exact ⟨(D, min (D + 365 * k) L - 1), List.mem_cons_self _ _, hd, hdM⟩
          · obtain ⟨p, hp, hp1, hp2⟩ := ihcov d (by omega) hd2
            exact ⟨p, List.mem_cons_of_mem _ hp, hp1, hp2⟩
        · intro _
          simp
    · have hres : dayLoop (fuel + 1) k D L = [] := by
        simp only [dayLoop]
        rw [if_neg hDL]
      rw [hres]
      refine ⟨trivial, by simp, ?_, ?_⟩
      · intro d hd hd2
        omega
      · intro h2c
        omega

/-- A contiguous chain of intervals with ends at least starts is ordered
ascending and pairwise non-overlapping, and starts no earlier than D. -/
theorem contigFrom_pairwise :
    ∀ (l : List (ℤ × ℤ)) (D : ℤ), contigFrom D l → (∀ p ∈ l, p.1 ≤ p.2) →
      (∀ p ∈ l, D ≤ p.1) ∧ l.Pairwise (fun p q => p.2 < q.1) := by
  intro l
  induction l with
  | nil => intro D _ _; exact ⟨by simp, List.Pairwise.nil⟩
  | cons p rest ih =>
    intro D hc hspan
    obtain ⟨hp1, hcrest⟩ := hc
    obtain ⟨hrest1, hrest2⟩ := ih (p.2 + 1) hcrest (fun q hq => hspan q (List.mem_cons_of_mem _ hq))
    refine ⟨?_, ?_⟩
    · intro q hq
      rcases List.mem_cons.mp hq with hq | hq
      · subst hq; omega
      · have := hrest1 q hq
        have := hspan p (List.mem_cons_self _ _)
        omega
    · refine List.pairwise_cons.mpr ⟨?_, hrest2⟩
      intro q hq
      have := hrest1 q hq
      omega

/-- Every calendar year has at least 365 days. -/
theorem daysInYear_ge (y : ℕ) : 365 ≤ daysInYear y := by
  unfold daysInYear
  split <;> norm_num

/-- A nonempty year span has at least 365 days in total. -/
theorem totalDays_ge (sy ey : ℕ) (h : sy ≤ ey) : 365 ≤ totalDays sy ey := by
  unfold totalDays
  have hn : ey + 1 - sy = (ey - sy) + 1 := by omega
  rw [hn, List.range_succ_eq_map, List.map_cons, List.sum_cons]
  have := daysInYear_ge (sy + 0)
  have hrest : 0 ≤ (((List.range (ey - sy)).map Nat.succ).map
      (fun i => daysInYear (sy + i))).sum := Nat.zero_le _
  omega

/-- The sorted frame is pairwise nondecreasing in time. -/
theorem sortByTime_sorted (df : List EventT) :
    (sortByTime df).Pairwise (fun a b => a.t ≤ b.t) := by
  haveI : IsTotal EventT (fun a b => a.t ≤ b.t) := ⟨fun a b => le_total a.t b.t⟩
  haveI : IsTrans EventT (fun a b => a.t ≤ b.t) := ⟨fun _ _ _ hab hbc => le_trans hab hbc⟩
  exact List.sorted_insertionSort _ df

/-- On a time-sorted list, dropping up to the first element past a
threshold is the same as filtering by the threshold. -/
theorem drop_findIdx_eq_filter (c : ℤ) :
    ∀ l : List EventT, l.Pairwise (fun a b => a.t ≤ b.t) →
      l.drop (l.findIdx (fun r => decide (c < r.t))) =
        l.filter (fun r => decide (c < r.t)) := by
  intro l hl
  induction l with
  | nil => simp
  | cons a l ih =>
    rw [List.pairwise_cons] at hl
    rw [List.findIdx_cons]
    by_cases h : c < a.t
    · have hall : ∀ r ∈ l, c < r.t := fun r hr => lt_of_lt_of_le h (hl.1 r hr)
      rw [decide_eq_true h, cond_true, List.drop_zero,
        List.filter_cons_of_pos (by simpa using h),
        List.filter_eq_self.mpr (by intro r hr; simpa using hall r hr)]
    · rw [decide_eq_false h, cond_false, List.drop_succ_cons,
        List.filter_cons_of_neg (by simpa using h)]
      exact ih hl.2

/-- In a time-sorted list every row of the prefix ending at position i
occurs no later than row i. -/
theorem take_le_row (s : List EventT) (hs : s.Pairwise (fun a b => a.t ≤ b.t))
    (i : ℕ) (hi : i < s.length) :
    ∀ r ∈ s.take (i + 1), r.t ≤ (s.getD i default).t := by
  intro r hr
  rw [List.getD_eq_getElem s default hi]
  obtain ⟨j, hj, hget⟩ := List.mem_iff_getElem.mp hr
  have hj2 : j < s.length := lt_of_lt_of_le hj (by simp [List.length_take])
  have hji : j ≤ i := by
    have := hj
    simp only [List.length_take] at this
    omega
  rw [List.getElem_take] at hget
  subst hget
  rcases lt_or_eq_of_le hji with hlt | hEq
  · exact (List.pairwise_iff_getElem.mp hs j i hj2 hi hlt)
  · subst hEq
    exact le_refl _

/-- The pandas rolling window over the prefix at row i of a sorted frame
equals the rows of the prefix whose time lies in the left-open window. -/
theorem windowSlice_eq_openFilter (s : List EventT)
    (hs : s.Pairwise (fun a b => a.t ≤ b.t)) (i : ℕ) (hi : i < s.length) (W : ℤ) :
    windowSlice (s.take (i + 1)) (s.getD i default).t W =
      (s.take (i + 1)).filter
        (fun r => decide ((s.getD i default).t - W < r.t) &&
          decide (r.t ≤ (s.getD i default).t)) := by
  unfold windowSlice
  rw [drop_findIdx_eq_filter _ _ (hs.sublist (List.take_sublist (i + 1) s))]
  refine List.filter_congr fun r hr => ?_
  have hle := take_le_row s hs i hi r hr
  rw [decide_eq_true hle, Bool.and_true]

/-- C8: the cleaning stage is idempotent: applying clean_data to its own
output removes no further rows and leaves the table unchanged.  The first
pass leaves ids pairwise distinct, critical cells present, every numeric
column fully present or fully null, magnitudes within 0..10 and depths
absolute, and each cleaning step is the identity on such a table. -/
theorem clean_data_idempotent (df : List Row) :
    clean_data (clean_data df) = clean_data df := by
  have hIds : IdsDistinct (clean_data df) :=
    absDepth_idsDistinct _ (idsDistinct_filter _ _ (idsDistinct_filter _ _
      (imputeAll_idsDistinct _ (idsDistinct_filter _ _ (dropDupAux_pairwise df [])))))
  have hCrit : CritSome (clean_data df) :=
    absDepth_critSome _ (critSome_filter _ _ (critSome_filter _ _
      (imputeAll_critSome _ (dropnaCrit_critSome _))))
  have hStable : ∀ c, StableAt c (clean_data df) := fun c =>
    absDepth_stableAt _ c (filter_stableAt _ _ c (filter_stableAt _ _ c
      (imputeAll_stable _ c)))
  have hHi : MagHi (clean_data df) :=
    absDepth_magHi _ (fun r hr => List.of_mem_filter (List.mem_of_mem_filter hr))
  have hLo : MagLo (clean_data df) :=
    absDepth_magLo _ (fun r hr => List.of_mem_filter hr)
  have hDep : DepthAbsd (clean_data df) := absDepth_establishes _
  have h1 : dropDupIds (clean_data df) = clean_data df := dropDupIds_id _ hIds
  have h2 : dropnaCrit (clean_data df) = clean_data df := dropnaCrit_id _ hCrit
  have h3 : imputeAll (clean_data df) = clean_data df := imputeAll_id _ hStable
  have h4 : (clean_data df).filter magLeTen = clean_data df :=
    List.filter_eq_self.mpr hHi
  have h5 : (clean_data df).filter magGeZero = clean_data df :=
    List.filter_eq_self.mpr hLo
  have h6 : absDepth (clean_data df) = clean_data df := absDepth_id _ hDep
  calc clean_data (clean_data df)
      = absDepth (((imputeAll (dropnaCrit (dropDupIds
          (clean_data df)))).filter magLeTen).filter magGeZero) := rfl
    _ = clean_data df := by rw [h1, h2, h3, h4, h5, h6]

/-- C2 counterexample: the generated intervals do not always cover the
whole range.  For start 2020, end 2020, one-year intervals, the single
generated interval is days 0..364 of 2020 (Jan 1 through Dec 30): the
interval arithmetic of 365-day chunks lands a boundary exactly on the
midnight of Dec 31 of the leap year 2020, the final one-day remainder is
dropped as spanning less than one day, and Dec 31 (day 365) is covered by
no interval. -/
theorem generate_date_intervals_counterexample : ¬ intervalsClaim 2020 2020 1 := by
  intro h
  simp only [intervalsClaim, coversAllDays] at h
  obtain ⟨-, -, -, hcov⟩ := h
  obtain ⟨p, hp, h1, h2⟩ := hcov 365 (by norm_num) (by decide)
  rw [show generate_date_intervals 2020 2020 1 = [((0 : ℤ), 364)] from by decide] at hp
  simp only [List.mem_singleton] at hp
  subst hp
  norm_num at h2

/-- C2 amended: for start_year at most end_year and a positive interval
length, the generated intervals are a contiguous chain starting at Jan 1
of start_year (each next interval starts the day after the previous one
ends), ordered ascending and non-overlapping, each with end at least
start and inside the global range, at least one interval is produced, and
every day of the range is covered except possibly the final day Dec 31 of
end_year, which is dropped when an interval boundary lands exactly on its
midnight. -/
theorem generate_date_intervals_props (sy ey : ℕ) (k : ℤ)
    (hse : sy ≤ ey) (hk : 1 ≤ k) :
    contigFrom 0 (generate_date_intervals sy ey k) ∧
    (generate_date_intervals sy ey k).Pairwise (fun p q => p.2 < q.1) ∧
    (∀ p ∈ generate_date_intervals sy ey k,
      0 ≤ p.1 ∧ p.1 ≤ p.2 ∧ p.2 < (totalDays sy ey : ℤ)) ∧
    (∀ d : ℤ, 0 ≤ d → d + 2 ≤ (totalDays sy ey : ℤ) →
      ∃ p ∈ generate_date_intervals sy ey k, p.1 ≤ d ∧ d ≤ p.2) ∧
    generate_date_intervals sy ey k ≠ [] := by
  have heq : generate_date_intervals sy ey k =
      dayLoop (totalDays sy ey) k 0 (totalDays sy ey : ℤ) := by
    have hcorr := genLoop_eq_dayLoop k hk ((totalDays sy ey : ℕ) : ℤ)
      (totalDays sy ey) 0 (le_refl 0)
    simp only [mul_zero] at hcorr
    simpa [generate_date_intervals] using hcorr
  have h365 := totalDays_ge sy ey hse
  obtain ⟨hc, hb, hcov, hne⟩ :=
    dayLoop_props k hk (totalDays sy ey) 0 (totalDays sy ey : ℤ) (by omega)
  rw [heq]
  have hspan : ∀ p ∈ dayLoop (totalDays sy ey) k 0 (totalDays sy ey : ℤ), p.1 ≤ p.2 :=
    fun p hp => (hb p hp).2.1
  obtain ⟨hstart, hpw⟩ := contigFrom_pairwise _ 0 hc hspan
  refine ⟨hc, hpw, ?_, hcov, hne (by omega)⟩
  intro p hp
  exact ⟨hstart p hp, (hb p hp).2.1, (hb p hp).2.2⟩

/-- Witness: the amended interval properties at the repository default
configuration, 2018 through 2020 in two-year chunks. -/
theorem generate_date_intervals_props_witness :
    ((2018 : ℕ) ≤ 2020 ∧ (1 : ℤ) ≤ 2) ∧
    (contigFrom 0 (generate_date_intervals 2018 2020 2) ∧
     (generate_date_intervals 2018 2020 2).Pairwise (fun p q => p.2 < q.1) ∧
     (∀ p ∈ generate_date_intervals 2018 2020 2,
       0 ≤ p.1 ∧ p.1 ≤ p.2 ∧ p.2 < (totalDays 2018 2020 : ℤ)) ∧
     (∀ d : ℤ, 0 ≤ d → d + 2 ≤ (totalDays 2018 2020 : ℤ) →
       ∃ p ∈ generate_date_intervals 2018 2020 2, p.1 ≤ d ∧ d ≤ p.2) ∧
     generate_date_intervals 2018 2020 2 ≠ []) :=
  ⟨⟨by norm_num, by norm_num⟩,
   generate_date_intervals_props 2018 2020 2 (by norm_num) (by norm_num)⟩

/-- C1 counterexample: the rolling means do not use the closed window.
On two events exactly 24 hours apart, the 24-hour rolling mean at the
second row is its own magnitude 3 (the pandas window is left-open), while
the mean over the closed interval also contains the first row and is 2. -/
theorem rolling_closed_window_counterexample : ¬ rollingClaim c1boundary := by
  intro h
  have h1 : (1 : ℕ) ∈ List.range (sortByTime c1boundary).length := by
    simp [sortByTime, c1boundary]
  have hmem : buildLagRow (sortByTime c1boundary) 1 ∈ create_lag_features c1boundary :=
    List.mem_map_of_mem _ h1
  have h2 := (h (buildLagRow (sortByTime c1boundary) 1) hmem).1
  norm_num [buildLagRow, sortByTime, c1boundary, windowSlice, windowMean,
    closedWindowMean, H24, List.findIdx_cons] at h2

/-- C1 amended: each rolling magnitude mean of the Feature Transform (24
hours, 7 days, 30 days) is the arithmetic mean of the magnitudes of the
rows up to and including row i of the time-sorted table whose occurrence
time lies in the left-open interval from t_i - W exclusive to t_i
inclusive: a row at exactly t_i - W is excluded. -/
theorem rolling_open_window (df : List EventT) (i : ℕ)
    (h : i < (create_lag_features df).length) :
    ((create_lag_features df).getD i default).mag_rolling_24h =
        openPrefixMean (sortByTime df) i H24 ∧
    ((create_lag_features df).getD i default).mag_rolling_7d =
        openPrefixMean (sortByTime df) i D7 ∧
    ((create_lag_features df).getD i default).mag_rolling_30d =
        openPrefixMean (sortByTime df) i D30 := by
  have hlen : (create_lag_features df).length = (sortByTime df).length := by
    simp [create_lag_features]
  have hi : i < (sortByTime df).length := hlen ▸ h
  have hrow : (create_lag_features df).getD i default = buildLagRow (sortByTime df) i := by
    rw [List.getD_eq_getElem _ _ h]
    simp [create_lag_features]
  rw [hrow]
  have hs := sortByTime_sorted df
  refine ⟨?_, ?_, ?_⟩ <;>
  · show windowMean (windowSlice _ _ _) = _
    rw [windowSlice_eq_openFilter (sortByTime df) hs i hi]
    rfl

/-- Witness: the amended rolling property applied to the one-event frame
at index 0. -/
theorem rolling_open_window_witness :
    0 < (create_lag_features c1single).length ∧
    (((create_lag_features c1single).getD 0 default).mag_rolling_24h =
        openPrefixMean (sortByTime c1single) 0 H24 ∧
      ((create_lag_features c1single).getD 0 default).mag_rolling_7d =
        openPrefixMean (sortByTime c1single) 0 D7 ∧
      ((create_lag_features c1single).getD 0 default).mag_rolling_30d =
        openPrefixMean (sortByTime c1single) 0 D30) :=
  ⟨by simp [create_lag_features, sortByTime, c1single],
   rolling_open_window c1single 0 (by simp [create_lag_features, sortByTime, c1single])⟩

/-- C6 counterexample: the claim that the schema check reports a
violation whenever any row of a core column holds a non-numeric value is
false: the two-row frame whose second magnitude is the string bad passes
the schema check, because only the first element is inspected. -/
theorem schema_check_counterexample :
    ¬ (∀ df : QFrame, hasNonNumericCore df → (check_schema df).1 = false) := by
  intro h
  have hnn : hasNonNumericCore c6frame :=
    ⟨strMagRow, by simp [c6frame], Or.inl ⟨"bad", rfl⟩⟩
  have htrue : (check_schema c6frame).1 = true := by decide
  rw [h c6frame hnn] at htrue
  cases htrue

/-- C6 amended: the schema check inspects only the first stored element
of each core column: it passes exactly when the isinstance test succeeds
on the dtype-boxed first value of magnitude, time, longitude and
latitude, so a non-numeric value confined to later rows is never
reported. -/
theorem schema_check_first_row_only (df : QFrame) :
    (check_schema df).1 = true ↔
      (isinstFloatInt (firstStored df (fun r => r.magnitude)) = true ∧
       isinstTime (firstStored df (fun r => r.time)) = true ∧
       isinstFloatInt (firstStored df (fun r => r.longitude)) = true ∧
       isinstFloatInt (firstStored df (fun r => r.latitude)) = true) := by
  cases hm : isinstFloatInt (firstStored df (fun r => r.magnitude)) <;>
  cases ht : isinstTime (firstStored df (fun r => r.time)) <;>
  cases hlo : isinstFloatInt (firstStored df (fun r => r.longitude)) <;>
  cases hla : isinstFloatInt (firstStored df (fun r => r.latitude)) <;>
  simp [check_schema, schemaColViol, hm, ht, hlo, hla]

set_option maxHeartbeats 1000000 in
/-- C3: on the three-event fixture (magnitudes 3, 4.5, 2 at hours 0, 6
and 30) the transform yields time_since_last 0, 6, 24 hours, magnitude
lag-1 null, 3, 4.5, and a 24-hour rolling mean of 2 at the third row:
the row 24 hours before it falls outside the left-open window. -/
theorem transform_fixture :
    (create_lag_features c3fixture).map (fun o => o.time_since_last) = [0, 6, 24] ∧
    (create_lag_features c3fixture).map (fun o => o.mag_lag1) =
      [none, some 3, some (9 / 2)] ∧
    ((create_lag_features c3fixture).map (fun o => o.mag_rolling_24h)).getD 2 0 = 2 := by
  refine ⟨?_, ?_, ?_⟩ <;>
  norm_num [create_lag_features, sortByTime, buildLagRow, windowSlice, windowMean,
    H24, D7, D30, c3fixture, List.findIdx_cons,
    show List.range 3 = [0, 1, 2] from rfl]

end EtlModel
